import Mathlib

/-!
Shallow embedding of `src/youtube_api_grab_subs.py` (the YouTube subtitle
grabber) and verification of the specification claims about it.

Modelling conventions:
  * Python strings are Lean `String` / `List Char`; byte payloads are taken
    after their UTF-8 decode, as `String`.
  * The YouTube transport (`.execute()` calls) is injected as data: a
    `Transport` value per call, where `Transport.err s` models a raised
    `HttpError` with integer status `s`.
  * Raised Python exceptions are modelled with `Except RunError`:
    `RunError.http s` for `HttpError`, `RunError.typeError` for the
    `TypeError` raised by subscripting `None`, and `RunError.valueError`
    for the `ValueError` raised by `pd.to_datetime` / `pd.Timestamp` on an
    unparsable date string.
  * `pd.Timestamp` values are encoded as the natural number
    `((((y*100+mo)*100+d)*100+h)*100+mi)*100+s`; for timestamps whose
    fields are in their valid ranges this encoding is strictly monotone in
    chronological order, so `min` / `max` over encodings agree with
    `min` / `max` over timestamps.
  * The output directory is modelled as the list of file names (base names)
    it contains, in creation order.
-/

namespace YTGrab

/-! ### Errors and transport -/

/-- Exceptions that the script can raise. -/
inductive RunError where
  | http (status : Nat)
  | typeError
  | valueError
deriving DecidableEq, Repr

/-- Result of one `.execute()` call against the YouTube client: either the
decoded response value or a raised `HttpError` with the given status. -/
inductive Transport (α : Type) where
  | ok (val : α)
  | err (status : Nat)

/-! ### SubtitleMsg and the SRT block regex

The source compiles the pattern
`(?P<idx>\d+)\n(?P<start>[\d+|:|,]+) --> (?P<end>[\d+|:|,]+)\n(?P<text>.*)`
and applies `re.search` to each stripped block.  Inside the character class
`[\d+|:|,]` the `+`, `|`, `:`, `,` are literal characters.  `re.search`
tries a match starting at every position from the left; at a fixed start
position the match is deterministic: each of `\d+` and `[\d+|:|,]+`
greedily takes the maximal run of its class, and backtracking to a shorter
run can never succeed because the character that follows a shortened run is
still a member of the class, while the pattern next requires a character
that is not in the class (a newline after `\d+` and after the second class
run, a space before ` --> ` after the first).  `.*` takes the rest of the
current line.  `tryMatchAt` below is that deterministic attempt and
`reSearch` is the left-to-right scan. -/

/-- The namedtuple `SubtitleLine` (bound to the Python name `SubtitleMsg`):
`idx, start, end, text`, all captured as strings by `groupdict()`.
The Python field `end` is called `endTime` here because `end` is a Lean
keyword. -/
structure SubtitleMsg where
  idx : String
  start : String
  endTime : String
  text : String
deriving DecidableEq, Repr

/-- Membership in the character class `[\d+|:|,]` of the pattern. -/
def isTimingChar (c : Char) : Bool :=
  c.isDigit || c = '+' || c = '|' || c = ':' || c = ','

/-- One deterministic match attempt of the compiled pattern at the start of
`cs` (see the discussion above: no backtracking can occur). -/
def tryMatchAt (cs : List Char) : Option SubtitleMsg :=
  if (cs.takeWhile Char.isDigit).isEmpty then none
  else
    match cs.dropWhile Char.isDigit with
    | '\n' :: r2 =>
      if (r2.takeWhile isTimingChar).isEmpty then none
      else
        match r2.dropWhile isTimingChar with
        | ' ' :: '-' :: '-' :: '>' :: ' ' :: r4 =>
          if (r4.takeWhile isTimingChar).isEmpty then none
          else
            match r4.dropWhile isTimingChar with
            | '\n' :: r6 =>
              some ⟨String.mk (cs.takeWhile Char.isDigit),
                String.mk (r2.takeWhile isTimingChar),
                String.mk (r4.takeWhile isTimingChar),
                String.mk (r6.takeWhile (fun c => c != '\n'))⟩
            | _ => none
        | _ => none
    | _ => none

/-- `re.search`: try a match at every position, left to right. -/
def reSearch : List Char → Option SubtitleMsg
  | [] => none
  | c :: rest =>
    match tryMatchAt (c :: rest) with
    | some m => some m
    | none => reSearch rest

/-- The whitespace set of Python `str.strip()`. -/
def isPyWs (c : Char) : Bool :=
  c = ' ' || c = '\t' || c = '\n' || c = '\r' || c = '\x0b' || c = '\x0c'

/-- Python `str.strip()` on a character list. -/
def pyStrip (l : List Char) : List Char :=
  ((l.dropWhile isPyWs).reverse.dropWhile isPyWs).reverse

/-- Python `str.split("\n\n")`: non-overlapping, leftmost-first splitting on
the exact two-newline separator.  The first argument accumulates the
current field in reverse. -/
def splitNN : List Char → List Char → List (List Char)
  | acc, [] => [acc.reverse]
  | acc, [c] => [(c :: acc).reverse]
  | acc, c :: c2 :: rest =>
    if c = '\n' ∧ c2 = '\n' then acc.reverse :: splitNN [] rest
    else splitNN (c :: acc) (c2 :: rest)

/-- Processing of one block of the split payload: `line.strip()`, skip if
empty (`if not line: continue`), else `re.search(pattern, line)`. -/
def blockLine (b : List Char) : Option SubtitleMsg :=
  if (pyStrip b).isEmpty then none else reSearch (pyStrip b)

/-- One iteration of the parsing loop: `result.append(...)` when the block
matches, else leave `result` unchanged. -/
def appendIfMatch (acc : List SubtitleMsg) (b : List Char) : List SubtitleMsg :=
  match blockLine b with
  | some m => acc ++ [m]
  | none => acc

/-- The parsing loop inside `get_subtitles`: iterate the blocks of
`subtitle.split("\n\n")` and append each successful match to `result`. -/
def parseSrt (s : String) : List SubtitleMsg :=
  (splitNN [] s.data).foldl appendIfMatch []

/-- `VideoGetter.get_subtitles`: download the track (the transport outcome
is injected), decode, and run the parsing loop.  The `try`/`except
HttpError` around the body turns a 403 (forbidden) into an empty result and
re-raises every other `HttpError`. -/
def get_subtitles (resp : Transport String) : Except RunError (List SubtitleMsg) :=
  match resp with
  | .ok payload => .ok (parseSrt payload)
  | .err s => if s = 403 then .ok [] else .error (.http s)

/-! ### Caption track resolution -/

/-- One element of the `captions.list` response: its `id` and
`snippet.trackKind`. -/
structure CaptionItem where
  id : String
  trackKind : String
deriving DecidableEq, Repr

/-- The loop of `get_asr_caption_id`: first item whose `trackKind` is
`"ASR"`, else `None`. -/
def findASR : List CaptionItem → Option String
  | [] => none
  | item :: rest => if item.trackKind = "ASR" then some item.id else findASR rest

/-- `VideoGetter.get_asr_caption_id`: no `try`/`except` here, so a raised
`HttpError` (any status, 403 included) propagates to the caller. -/
def get_asr_caption_id (resp : Transport (List CaptionItem)) :
    Except RunError (Option String) :=
  match resp with
  | .ok items => .ok (findASR items)
  | .err s => .error (.http s)

/-! ### Timestamps -/

/-- Encoding of a timestamp `y-mo-d h:mi:s` as a single natural number,
monotone in chronological order for in-range fields. -/
def dtKey (y mo d h mi s : Nat) : Nat :=
  ((((y * 100 + mo) * 100 + d) * 100 + h) * 100 + mi) * 100 + s

def keyY (k : Nat) : Nat := k / 10000000000
def keyMo (k : Nat) : Nat := k / 100000000 % 100
def keyD (k : Nat) : Nat := k / 1000000 % 100
def keyH (k : Nat) : Nat := k / 10000 % 100
def keyMi (k : Nat) : Nat := k / 100 % 100
def keyS (k : Nat) : Nat := k % 100

def digitVal (c : Char) : Nat := c.toNat - 48

/-- Two decimal digit characters as a number. -/
def d2v (a b : Char) : Nat := digitVal a * 10 + digitVal b

/-- Four decimal digit characters as a number. -/
def d4v (a b c d : Char) : Nat := ((digitVal a * 10 + digitVal b) * 10 + digitVal c) * 10 + digitVal d

def isLeap (y : Nat) : Bool := (y % 4 = 0 && y % 100 != 0) || y % 400 = 0

def daysInMonth (y mo : Nat) : Nat :=
  if mo = 2 then (if isLeap y then 29 else 28)
  else if mo = 4 || mo = 6 || mo = 9 || mo = 11 then 30
  else 31

/-- The field-range validation performed by the pandas datetime parsers. -/
def validDate (y mo d h mi s : Nat) : Bool :=
  1 ≤ mo && mo ≤ 12 && 1 ≤ d && d ≤ daysInMonth y mo && h ≤ 23 && mi ≤ 59 && s ≤ 59

/-- `pd.to_datetime(date, format="%Y%m%d_%H%M%S", utc=True)`: exact match
of the 15-character shape with field validation; `none` models the raised
`ValueError`. -/
def parseYmdHms (l : List Char) : Option Nat :=
  match l with
  | [a, b, c, d, m1, m2, g1, g2, u, h1, h2, i1, i2, s1, s2] =>
    if ([a, b, c, d, m1, m2, g1, g2, h1, h2, i1, i2, s1, s2].all Char.isDigit) && u = '_' then
      if validDate (d4v a b c d) (d2v m1 m2) (d2v g1 g2) (d2v h1 h2) (d2v i1 i2) (d2v s1 s2) then
        some (dtKey (d4v a b c d) (d2v m1 m2) (d2v g1 g2) (d2v h1 h2) (d2v i1 i2) (d2v s1 s2))
      else none
    else none
  | _ => none

/-- `pd.Timestamp(item["snippet"]["publishedAt"])` for the ISO-8601 shape
`YYYY-MM-DDTHH:MM:SSZ` the search API returns; `none` models a raised
`ValueError`. -/
def parseIso (l : List Char) : Option Nat :=
  match l with
  | [a, b, c, d, e1, m1, m2, e2, g1, g2, t, h1, h2, e3, i1, i2, e4, s1, s2, z] =>
    if ([a, b, c, d, m1, m2, g1, g2, h1, h2, i1, i2, s1, s2].all Char.isDigit)
        && e1 = '-' && e2 = '-' && t = 'T' && e3 = ':' && e4 = ':' && z = 'Z' then
      if validDate (d4v a b c d) (d2v m1 m2) (d2v g1 g2) (d2v h1 h2) (d2v i1 i2) (d2v s1 s2) then
        some (dtKey (d4v a b c d) (d2v m1 m2) (d2v g1 g2) (d2v h1 h2) (d2v i1 i2) (d2v s1 s2))
      else none
    else none
  | _ => none

def digitChar (n : Nat) : Char := Char.ofNat (48 + n)

def pad2 (n : Nat) : List Char := [digitChar (n / 10 % 10), digitChar (n % 10)]

def pad4 (n : Nat) : List Char :=
  [digitChar (n / 1000 % 10), digitChar (n / 100 % 10), digitChar (n / 10 % 10), digitChar (n % 10)]

/-- `strftime("%Y-%m-%dT%H:%M:%SZ")` on an encoded timestamp. -/
def strfIso (k : Nat) : String :=
  String.mk (pad4 (keyY k) ++ '-' :: pad2 (keyMo k) ++ '-' :: pad2 (keyD k) ++
    'T' :: pad2 (keyH k) ++ ':' :: pad2 (keyMi k) ++ ':' :: pad2 (keyS k) ++ ['Z'])

/-- `strftime("%Y%m%d_%H%M%S")` on an encoded timestamp. -/
def strfFileTs (k : Nat) : String :=
  String.mk (pad4 (keyY k) ++ pad2 (keyMo k) ++ pad2 (keyD k) ++
    '_' :: pad2 (keyH k) ++ pad2 (keyMi k) ++ pad2 (keyS k))

/-! ### Checkpoint scanner (`get_extreme_video_date`) -/

def DIR_NAME : String := "by_title"
def GRAB_BEFORE : String := "2018-10-20T00:00:00Z"
def GRAB_AFTER : String := "2018-01-01T00:00:00Z"

/-- Python `one_file.split("/", 1)[1]`: everything after the first slash. -/
def afterFirstSlash (s : String) : String :=
  String.mk ((s.data.dropWhile (fun c => c != '/')).drop 1)

/-- Python `str.split("_", maxsplit)`: each step peels one field at the
first underscore, until the budget is spent or no underscore remains. -/
def splitUnderscoreMax : Nat → List Char → List (List Char)
  | 0, s => [s]
  | n + 1, s =>
    match s.dropWhile (fun c => c != '_') with
    | [] => [s]
    | _ :: tail => s.takeWhile (fun c => c != '_') :: splitUnderscoreMax n tail

/-- The date prefix the scan extracts from one glob result:
`"_".join(file_name.split("_", 2)[:2])` applied to the part of the path
after the first slash. -/
def fileDateText (path : String) : String :=
  String.intercalate "_" (((splitUnderscoreMax 2 (afterFirstSlash path).data).take 2).map String.mk)

/-- The `dates` accumulation loop of `get_extreme_video_date`: glob yields
`"by_title/" ++ name` for every matching `name`; each prefix is parsed with
`pd.to_datetime`, whose `ValueError` on an unparsable prefix aborts the
loop. -/
def collectDates : List String → Except RunError (List Nat)
  | [] => .ok []
  | f :: rest =>
    match parseYmdHms (fileDateText (DIR_NAME ++ "/" ++ f)).data with
    | none => .error .valueError
    | some k =>
      match collectDates rest with
      | .error e => .error e
      | .ok ks => .ok (k :: ks)

/-- The `*.csv` glob pattern: the file name ends with `.csv`. -/
def csvMatch (f : String) : Bool := List.isSuffixOf ".csv".data f.data

/-- The dictionary `{"last": max(dates), "oldest": min(dates)}`. -/
structure Extreme where
  last : Nat
  oldest : Nat
deriving DecidableEq, Repr

/-- Python `max(dates)` over a nonempty list, as a fold from the head. -/
def maxList (a : Nat) (l : List Nat) : Nat := l.foldl max a

/-- Python `min(dates)` over a nonempty list, as a fold from the head. -/
def minList (a : Nat) (l : List Nat) : Nat := l.foldl min a

/-- `VideoGetter.get_extreme_video_date` over the directory contents
(base file names).  `glob.glob(f"{DIR_NAME}/*.csv")` keeps the `.csv`
entries; `.ok none` is the `return None` of the empty case. -/
def get_extreme_video_date (dirFiles : List String) : Except RunError (Option Extreme) :=
  match collectDates (dirFiles.filter csvMatch) with
  | .error e => .error e
  | .ok [] => .ok none
  | .ok (k :: ks) => .ok (some ⟨maxList k ks, minList k ks⟩)

/-! ### Crawl window and the paginated crawl -/

/-- The pair of bounds passed to `search().list` (`publishedAfter`,
`publishedBefore`), as the strings the code sends. -/
structure Window where
  publishedAfter : Option String
  publishedBefore : Option String
deriving DecidableEq, Repr

/-- The two constructor flags selecting the run mode:
`⟨false, false⟩` is `initial` (static defaults), `⟨true, false⟩` is
catch-up (`get_latest`), `⟨b, true⟩` is backfill (`get_after_least`,
the constructor default). -/
structure Getter where
  get_latest : Bool
  get_after_least : Bool
deriving DecidableEq, Repr

/-- The first half of `_get_search_videos`: starting from the class
defaults, the `get_latest` branch and then the `get_after_least` branch
each recompute the bounds from the directory.  Subscripting the `None`
returned by an empty scan raises `TypeError`. -/
def computeWindow (g : Getter) (dirFiles : List String) : Except RunError Window :=
  match ((if g.get_latest then
      match get_extreme_video_date dirFiles with
      | .error e => .error e
      | .ok none => .error .typeError
      | .ok (some ex) => .ok (⟨some (strfIso ex.last), none⟩ : Window)
    else .ok (⟨some GRAB_AFTER, some GRAB_BEFORE⟩ : Window)) : Except RunError Window) with
  | .error e => .error e
  | .ok w1 =>
    if g.get_after_least then
      match get_extreme_video_date dirFiles with
      | .error e => .error e
      | .ok none => .error .typeError
      | .ok (some ex) => .ok ⟨none, some (strfIso ex.oldest)⟩
    else .ok w1

/-- One item of the search response: `snippet.publishedAt`, `id.videoId`,
`snippet.title`. -/
structure SearchItem where
  publishedAt : String
  videoId : String
  title : String
deriving DecidableEq, Repr

/-- One page of the search response. -/
structure SearchResponse where
  items : List SearchItem
  nextPageToken : Option String

/-- The injected external collaborators: the search page provider and the
two caption endpoints (`captions.list` keyed by video id,
`captions.download` keyed by caption id). -/
structure Env where
  search : Window → Option String → SearchResponse
  captions : String → Transport (List CaptionItem)
  download : String → Transport String

/-- Python truthiness test applied to an optional string
(`if not asr_caption_id`, `if next_page_token`). -/
def pyFalsyOptStr : Option String → Bool
  | none => true
  | some s => s = ""

/-- The body of the per-item loop of `_get_search_videos`: parse the upload
time, resolve the ASR caption id (skipping the item when it is falsy),
fetch and parse the subtitles, and append the per-video CSV file name to
the directory when any lines were parsed. -/
def processItem (env : Env) (item : SearchItem) (dirFiles : List String) :
    Except RunError (List String) :=
  match parseIso item.publishedAt.data with
  | none => .error .valueError
  | some uploaded =>
    match get_asr_caption_id (env.captions item.videoId) with
    | .error e => .error e
    | .ok asrId =>
      if pyFalsyOptStr asrId then .ok dirFiles
      else
        match get_subtitles (env.download (asrId.getD "")) with
        | .error e => .error e
        | .ok subs =>
          if subs.isEmpty then .ok dirFiles
          else .ok (dirFiles ++ [strfFileTs uploaded ++ "_" ++ item.videoId ++ ".csv"])

/-- The per-item loop over one page: each item is processed against the
directory as left by the previous item; a raised exception stops the loop
with the files written so far still in place. -/
def processItems (env : Env) : List SearchItem → List String → List String × Option RunError
  | [], d => (d, none)
  | item :: rest, d =>
    match processItem env item d with
    | .error e => (d, some e)
    | .ok d2 => processItems env rest d2

/-- Observable outcome of a run of `_get_search_videos`: the final
directory contents, the log of `search().list` calls (window bounds and
page token per call, in order), and the exception that escaped, if any. -/
structure RunResult where
  dirFiles : List String
  reqs : List (Window × Option String)
  err : Option RunError
deriving DecidableEq, Repr

/-- `VideoGetter._get_search_videos`: recompute the window, request one
page, process its items, and recurse on `nextPageToken` while one is
present (Python truthiness).  `fuel` bounds the page recursion so the
definition is total; every claim is settled within the provided fuel. -/
def crawl (env : Env) (g : Getter) : Nat → List String → Option String → RunResult
  | 0, d, _ => ⟨d, [], none⟩
  | fuel + 1, d, tok =>
    match computeWindow g d with
    | .error e => ⟨d, [], some e⟩
    | .ok w =>
      match processItems env (env.search w tok).items d with
      | (d2, some e) => ⟨d2, [(w, tok)], some e⟩
      | (d2, none) =>
        if pyFalsyOptStr (env.search w tok).nextPageToken then ⟨d2, [(w, tok)], none⟩
        else
          ⟨(crawl env g fuel d2 (env.search w tok).nextPageToken).dirFiles,
            (w, tok) :: (crawl env g fuel d2 (env.search w tok).nextPageToken).reqs,
            (crawl env g fuel d2 (env.search w tok).nextPageToken).err⟩

/-- Modelled from the spec (§3 data model): a well-formed timecode is a
string in `HH:MM:SS,mmm` form.  The source performs no such validation;
this definition exists only to state that fact. -/
def specTimecode (s : String) : Bool :=
  match s.data with
  | [h1, h2, c1, m1, m2, c2, s1, s2, c3, x1, x2, x3] =>
    ([h1, h2, m1, m2, s1, s2, x1, x2, x3].all Char.isDigit) && c1 = ':' && c2 = ':' && c3 = ','
  | _ => false

/-! ### Derived characterizations and concrete test data used by the
theorems below -/

/-- Decimal reading of a digit string (used to state what integer an `idx`
capture denotes). -/
def decimalValue (l : List Char) : Nat := l.foldl (fun a c => a * 10 + digitVal c) 0

/-- The upload timestamps the scan derives, as a projection of the
directory contents: the parsed date of every `.csv` entry.  Proven below to
be what `collectDates` produces whenever the scan succeeds. -/
def scanDates (fs : List String) : List Nat :=
  (fs.filter csvMatch).filterMap (fun f => parseYmdHms (fileDateText (DIR_NAME ++ "/" ++ f)).data)

/-- Join a list of lines with single newlines (the shape of a multi-line
SRT block body). -/
def joinNL : List (List Char) → List Char
  | [] => []
  | [t] => t
  | t :: t2 :: ts => t ++ '\n' :: joinNL (t2 :: ts)

/-- An SRT block: an index line, a timing line, and the given text lines
joined by single newlines. -/
def srtBlock (idx st en : List Char) (texts : List (List Char)) : List Char :=
  idx ++ '\n' :: (st ++ ' ' :: '-' :: '-' :: '>' :: ' ' :: (en ++ '\n' :: joinNL texts))

/-- Directory contents of the spec's checkpoint-scanner example. -/
def demoFiles : List String := ["20180315_120000_abc123.csv", "20180410_090000_def456.csv"]

/-- Environment in which `captions.list` raises a 403 `HttpError` for every
video: caption-track resolution is forbidden. -/
def envC1 : Env :=
  ⟨fun _ _ => ⟨[⟨"2018-02-01T00:00:00Z", "v1", "Title one"⟩,
      ⟨"2018-02-02T00:00:00Z", "v2", "Title two"⟩], none⟩,
   fun _ => .err 403, fun _ => .ok ""⟩

/-- Environment driving a two-page backfill run: the first page returns one
video uploaded 2018-02-01 with an ASR track and a parsable subtitle payload
plus a continuation token, the second page is empty. -/
def envC2 : Env :=
  ⟨fun _ tok => if tok = some "t2" then ⟨[], none⟩
      else ⟨[⟨"2018-02-01T00:00:00Z", "v1", "Title one"⟩], some "t2"⟩,
   fun _ => .ok [⟨"c1", "ASR"⟩],
   fun _ => .ok "1\n00:00:01,000 --> 00:00:02,000\nHello"⟩

/-- A minimal environment (empty page, failing caption endpoints); the runs
that use it fail before ever consulting it. -/
def envC3 : Env := ⟨fun _ _ => ⟨[], none⟩, fun _ => .err 0, fun _ => .err 0⟩

/-- A search item reused by several closed instantiations. -/
def itemW : SearchItem := ⟨"2018-02-01T00:00:00Z", "v1", "Title one"⟩

/-- Environment whose `captions.list` raises 403. -/
def envWA : Env := ⟨fun _ _ => ⟨[], none⟩, fun _ => .err 403, fun _ => .err 403⟩

/-- Environment with an ASR track whose download raises 403. -/
def envWB : Env := ⟨fun _ _ => ⟨[], none⟩, fun _ => .ok [⟨"cb", "ASR"⟩], fun _ => .err 403⟩

/-- Environment with an ASR track whose download raises 500. -/
def envWC : Env := ⟨fun _ _ => ⟨[], none⟩, fun _ => .ok [⟨"cc", "ASR"⟩], fun _ => .err 500⟩

/-- Environment with an ASR track and a one-block subtitle payload. -/
def envW5 : Env :=
  ⟨fun _ _ => ⟨[itemW], none⟩, fun _ => .ok [⟨"c5", "ASR"⟩],
   fun _ => .ok "1\n00:00:01,000 --> 00:00:02,000\nHello"⟩

instance instDecEqExcept {ε α : Type} [DecidableEq ε] [DecidableEq α] :
    DecidableEq (Except ε α) :=
  fun a b =>
    match a, b with
    | .ok x, .ok y => if h : x = y then isTrue (by rw [h]) else isFalse (by simp [h])
    | .error x, .error y => if h : x = y then isTrue (by rw [h]) else isFalse (by simp [h])
    | .ok _, .error _ => isFalse (by simp)
    | .error _, .ok _ => isFalse (by simp)

/-! ### Generic helper lemmas -/

theorem foldl_appendIfMatch (l : List (List Char)) (acc : List SubtitleMsg) :
    l.foldl appendIfMatch acc = acc ++ l.filterMap blockLine := by
  induction l generalizing acc with
  | nil => simp
  | cons x xs ih =>
    cases hfx : blockLine x with
    | none => simp [List.foldl_cons, appendIfMatch, hfx, ih, List.filterMap_cons]
    | some m => simp [List.foldl_cons, appendIfMatch, hfx, ih, List.filterMap_cons]

theorem length_filterMap_countP {α β : Type} (f : α → Option β) (l : List α) :
    (l.filterMap f).length = l.countP (fun b => (f b).isSome) := by
  induction l with
  | nil => simp
  | cons x xs ih =>
    cases hfx : f x <;> simp [List.filterMap_cons, hfx, List.countP_cons, ih]

theorem takeWhile_append_all {α : Type} (p : α → Bool) (a b : List α)
    (ha : ∀ c ∈ a, p c = true) (hb : ∀ c, b.head? = some c → p c = false) :
    (a ++ b).takeWhile p = a ∧ (a ++ b).dropWhile p = b := by
  induction a with
  | nil =>
    cases b with
    | nil => simp
    | cons c cs => simp [List.takeWhile_cons, List.dropWhile_cons, hb c rfl]
  | cons x xs ih =>
    have hx : p x = true := ha x (List.mem_cons_self x xs)
    have h2 := ih (fun c hc => ha c (List.mem_cons_of_mem x hc))
    simp [List.takeWhile_cons, List.dropWhile_cons, hx, h2.1, h2.2]

theorem splitNN_cons_ne (c : Char) (hc : ¬ c = '\n') (acc rest : List Char) :
    splitNN acc (c :: rest) = splitNN (c :: acc) rest := by
  cases rest with
  | nil => simp [splitNN]
  | cons c2 rs =>
    rw [splitNN, if_neg]
    intro h
    exact hc h.1

theorem splitNN_nl (acc rest : List Char) (h : ∀ c, rest.head? = some c → ¬ c = '\n') :
    splitNN acc ('\n' :: rest) = splitNN ('\n' :: acc) rest := by
  cases rest with
  | nil => simp [splitNN]
  | cons c2 rs =>
    rw [splitNN, if_neg]
    intro hx
    exact h c2 rfl hx.2

theorem splitNN_seg (seg : List Char) (hseg : '\n' ∉ seg) :
    ∀ (acc rest : List Char), splitNN acc (seg ++ rest) = splitNN (seg.reverse ++ acc) rest := by
  induction seg with
  | nil => intro acc rest; simp
  | cons c cs ih =>
    intro acc rest
    have hc : ¬ c = '\n' := fun h => hseg (List.mem_cons.mpr (Or.inl h.symm))
    have hcs : '\n' ∉ cs := fun h => hseg (List.mem_cons_of_mem c h)
    rw [List.cons_append, splitNN_cons_ne c hc, ih hcs (c :: acc) rest]
    simp [List.reverse_cons, List.append_assoc]

theorem splitNN_no_nl (l : List Char) (h : '\n' ∉ l) (acc : List Char) :
    splitNN acc l = [acc.reverse ++ l] := by
  have h2 := splitNN_seg l h acc []
  rw [List.append_nil] at h2
  rw [h2]
  simp [splitNN, List.reverse_append]

theorem joinNL_head (t : List Char) (ts : List (List Char)) (ht : t ≠ []) :
    (joinNL (t :: ts)).head? = t.head? := by
  cases ts with
  | nil => rfl
  | cons t2 ts2 =>
    cases t with
    | nil => exact absurd rfl ht
    | cons c cs => rfl

theorem splitNN_joinNL : ∀ (ts : List (List Char)), (∀ t ∈ ts, t ≠ [] ∧ '\n' ∉ t) →
    ∀ acc, splitNN acc (joinNL ts) = [acc.reverse ++ joinNL ts] := by
  intro ts
  induction ts with
  | nil => intro _ acc; simp [joinNL, splitNN]
  | cons t ts2 ih =>
    intro h acc
    cases ts2 with
    | nil =>
      have ht := h t (List.mem_cons_self t [])
      exact splitNN_no_nl t ht.2 acc
    | cons t2 ts3 =>
      have ht := h t (List.mem_cons_self _ _)
      have h2 : ∀ x ∈ t2 :: ts3, x ≠ [] ∧ '\n' ∉ x :=
        fun x hx => h x (List.mem_cons_of_mem _ hx)
      have ht2 := h2 t2 (List.mem_cons_self _ _)
      show splitNN acc (t ++ '\n' :: joinNL (t2 :: ts3)) =
        [acc.reverse ++ (t ++ '\n' :: joinNL (t2 :: ts3))]
      rw [splitNN_seg t ht.2, splitNN_nl]
      · rw [ih h2]
        simp [List.reverse_cons, List.reverse_append, List.append_assoc]
      · intro c hc hceq
        rw [joinNL_head t2 ts3 ht2.1] at hc
        cases t2 with
        | nil => exact ht2.1 rfl
        | cons d ds =>
          have hd : d = c := by simpa using hc
          exact ht2.2 (by rw [hd, hceq]; exact List.mem_cons_self _ _)

theorem minList_le_init : ∀ (l : List Nat) (a : Nat), minList a l ≤ a := by
  intro l
  induction l with
  | nil => intro a; simp [minList]
  | cons y ys ih =>
    intro a
    have h0 : minList a (y :: ys) = minList (min a y) ys := by
      simp [minList, List.foldl_cons]
    rw [h0]
    exact le_trans (ih (min a y)) (min_le_left a y)

theorem minList_mem : ∀ (l : List Nat) (a : Nat), minList a l ∈ a :: l := by
  intro l
  induction l with
  | nil => intro a; simp [minList]
  | cons x xs ih =>
    intro a
    have h0 : minList a (x :: xs) = minList (min a x) xs := by
      simp [minList, List.foldl_cons]
    rw [h0]
    rcases List.mem_cons.mp (ih (min a x)) with h | h
    · rcases min_choice a x with hm | hm
      · rw [h, hm]; exact List.mem_cons_self _ _
      · rw [h, hm]; exact List.mem_cons.mpr (Or.inr (List.mem_cons_self _ _))
    · exact List.mem_cons.mpr (Or.inr (List.mem_cons.mpr (Or.inr h)))

theorem minList_le : ∀ (l : List Nat) (a x : Nat), x ∈ a :: l → minList a l ≤ x := by
  intro l
  induction l with
  | nil =>
    intro a x hx
    rcases List.mem_cons.mp hx with h | h
    · rw [h]; simp [minList]
    · exact absurd h (List.not_mem_nil x)
  | cons y ys ih =>
    intro a x hx
    have h0 : minList a (y :: ys) = minList (min a y) ys := by
      simp [minList, List.foldl_cons]
    rw [h0]
    rcases List.mem_cons.mp hx with h | h
    · rw [h]
      exact le_trans (minList_le_init ys (min a y)) (min_le_left a y)
    · rcases List.mem_cons.mp h with h2 | h2
      · rw [h2]
        exact le_trans (minList_le_init ys (min a y)) (min_le_right a y)
      · exact ih (min a y) x (List.mem_cons.mpr (Or.inr h2))

theorem maxList_ge_init : ∀ (l : List Nat) (a : Nat), a ≤ maxList a l := by
  intro l
  induction l with
  | nil => intro a; simp [maxList]
  | cons y ys ih =>
    intro a
    have h0 : maxList a (y :: ys) = maxList (max a y) ys := by
      simp [maxList, List.foldl_cons]
    rw [h0]
    exact le_trans (le_max_left a y) (ih (max a y))

theorem maxList_mem : ∀ (l : List Nat) (a : Nat), maxList a l ∈ a :: l := by
  intro l
  induction l with
  | nil => intro a; simp [maxList]
  | cons x xs ih =>
    intro a
    have h0 : maxList a (x :: xs) = maxList (max a x) xs := by
      simp [maxList, List.foldl_cons]
    rw [h0]
    rcases List.mem_cons.mp (ih (max a x)) with h | h
    · rcases max_choice a x with hm | hm
      · rw [h, hm]; exact List.mem_cons_self _ _
      · rw [h, hm]; exact List.mem_cons.mpr (Or.inr (List.mem_cons_self _ _))
    · exact List.mem_cons.mpr (Or.inr (List.mem_cons.mpr (Or.inr h)))

theorem maxList_ge : ∀ (l : List Nat) (a x : Nat), x ∈ a :: l → x ≤ maxList a l := by
  intro l
  induction l with
  | nil =>
    intro a x hx
    rcases List.mem_cons.mp hx with h | h
    · rw [h]; simp [maxList]
    · exact absurd h (List.not_mem_nil x)
  | cons y ys ih =>
    intro a x hx
    have h0 : maxList a (y :: ys) = maxList (max a y) ys := by
      simp [maxList, List.foldl_cons]
    rw [h0]
    rcases List.mem_cons.mp hx with h | h
    · rw [h]
      exact le_trans (le_max_left a y) (maxList_ge_init ys (max a y))
    · rcases List.mem_cons.mp h with h2 | h2
      · rw [h2]
        exact le_trans (le_max_right a y) (maxList_ge_init ys (max a y))
      · exact ih (max a y) x (List.mem_cons.mpr (Or.inr h2))

theorem collectDates_ok : ∀ (gs : List String) (ks : List Nat), collectDates gs = .ok ks →
    ks = gs.filterMap (fun f => parseYmdHms (fileDateText (DIR_NAME ++ "/" ++ f)).data) := by
  intro gs
  induction gs with
  | nil => intro ks h; simpa [collectDates] using h.symm
  | cons f rest ih =>
    intro ks h
    rw [collectDates] at h
    cases hp : parseYmdHms (fileDateText (DIR_NAME ++ "/" ++ f)).data with
    | none => rw [hp] at h; exact absurd h (by simp)
    | some k =>
      rw [hp] at h
      cases hc : collectDates rest with
      | error e => rw [hc] at h; exact absurd h (by simp)
      | ok ks2 =>
        rw [hc] at h
        have hks : ks = k :: ks2 := by
          have := h
          injection this with h2
          exact h2.symm
        rw [hks, List.filterMap_cons, hp, ih ks2 hc]

theorem collectDates_err : ∀ (gs : List String),
    (∃ f ∈ gs, parseYmdHms (fileDateText (DIR_NAME ++ "/" ++ f)).data = none) →
    collectDates gs = .error .valueError := by
  intro gs
  induction gs with
  | nil => intro h; rcases h with ⟨f, hf, _⟩; exact absurd hf (List.not_mem_nil f)
  | cons g rest ih =>
    intro h
    rcases h with ⟨f, hf, hbad⟩
    rw [collectDates]
    cases hp : parseYmdHms (fileDateText (DIR_NAME ++ "/" ++ g)).data with
    | none => rfl
    | some k =>
      have hfr : f ∈ rest := by
        rcases List.mem_cons.mp hf with h2 | h2
        · rw [h2] at hbad; rw [hbad] at hp; exact absurd hp (by simp)
        · exact h2
      rw [ih ⟨f, hfr, hbad⟩]

theorem collectDates_all_some : ∀ (gs : List String),
    (∀ f ∈ gs, ∃ k, parseYmdHms (fileDateText (DIR_NAME ++ "/" ++ f)).data = some k) →
    ∃ ks, collectDates gs = .ok ks := by
  intro gs
  induction gs with
  | nil => intro _; exact ⟨[], rfl⟩
  | cons g rest ih =>
    intro h
    rcases h g (List.mem_cons_self _ _) with ⟨k, hk⟩
    rcases ih (fun f hf => h f (List.mem_cons_of_mem _ hf)) with ⟨ks, hks⟩
    refine ⟨k :: ks, ?_⟩
    rw [collectDates, hk, hks]

/-- One deterministic pattern attempt against a list of the exact block
shape succeeds and captures the four groups. -/
theorem tryMatchAt_shape (idx st en t1 rest : List Char)
    (hidx : idx ≠ []) (hd : ∀ c ∈ idx, c.isDigit = true)
    (hst : st ≠ []) (hs : ∀ c ∈ st, isTimingChar c = true)
    (hen : en ≠ []) (he : ∀ c ∈ en, isTimingChar c = true)
    (ht : '\n' ∉ t1) :
    tryMatchAt (idx ++ '\n' ::
        (st ++ ' ' :: '-' :: '-' :: '>' :: ' ' :: (en ++ '\n' :: (t1 ++ '\n' :: rest)))) =
      some ⟨String.mk idx, String.mk st, String.mk en, String.mk t1⟩ := by
  have h1 := takeWhile_append_all Char.isDigit idx
    ('\n' :: (st ++ ' ' :: '-' :: '-' :: '>' :: ' ' :: (en ++ '\n' :: (t1 ++ '\n' :: rest))))
    hd (by intro c hc; injection hc with h2; rw [← h2]; rfl)
  have h2 := takeWhile_append_all isTimingChar st
    (' ' :: '-' :: '-' :: '>' :: ' ' :: (en ++ '\n' :: (t1 ++ '\n' :: rest)))
    hs (by intro c hc; injection hc with h2; rw [← h2]; rfl)
  have h3 := takeWhile_append_all isTimingChar en ('\n' :: (t1 ++ '\n' :: rest))
    he (by intro c hc; injection hc with h2; rw [← h2]; rfl)
  have h4 := takeWhile_append_all (fun c => c != '\n') t1 ('\n' :: rest)
    (by intro c hc; simpa using fun hceq => ht (by rw [hceq] at hc; exact hc))
    (by intro c hc; injection hc with h2; rw [← h2]; rfl)
  have hie1 : idx.isEmpty = false := by
    cases idx with
    | nil => exact absurd rfl hidx
    | cons a b => rfl
  have hie2 : st.isEmpty = false := by
    cases st with
    | nil => exact absurd rfl hst
    | cons a b => rfl
  have hie3 : en.isEmpty = false := by
    cases en with
    | nil => exact absurd rfl hen
    | cons a b => rfl
  simp only [tryMatchAt, h1.1, h1.2, h2.1, h2.2, h3.1, h3.2, h4.1, hie1, hie2, hie3,
    Bool.false_eq_true, if_false]

theorem splitNN_srtBlock (idx st en t1 : List Char) (ts : List (List Char))
    (hidxnl : '\n' ∉ idx) (hstnl : '\n' ∉ st) (hennl : '\n' ∉ en)
    (htexts : ∀ t ∈ t1 :: ts, t ≠ [] ∧ '\n' ∉ t) :
    splitNN [] (srtBlock idx st en (t1 :: ts)) = [srtBlock idx st en (t1 :: ts)] := by
  have ht1 := htexts t1 (List.mem_cons_self _ _)
  have hside1 : ∀ c,
      (st ++ ' ' :: '-' :: '-' :: '>' :: ' ' :: (en ++ '\n' :: joinNL (t1 :: ts))).head? =
        some c → ¬ c = '\n' := by
    cases st with
    | nil =>
      intro c hc
      simp only [List.nil_append, List.head?_cons, Option.some.injEq] at hc
      rw [← hc]; decide
    | cons s0 srest =>
      intro c hc hceq
      simp only [List.cons_append, List.head?_cons, Option.some.injEq] at hc
      exact hstnl (by rw [← hceq, hc]; exact List.mem_cons_self _ _)
  have hside2 : ∀ c, (joinNL (t1 :: ts)).head? = some c → ¬ c = '\n' := by
    intro c hc hceq
    rw [joinNL_head t1 ts ht1.1] at hc
    cases hcc : t1 with
    | nil => exact ht1.1 hcc
    | cons d ds =>
      rw [hcc, List.head?_cons, Option.some.injEq] at hc
      exact ht1.2 (by rw [hcc, hc, hceq]; exact List.mem_cons_self _ _)
  show splitNN []
      (idx ++ '\n' :: (st ++ ' ' :: '-' :: '-' :: '>' :: ' ' :: (en ++ '\n' :: joinNL (t1 :: ts)))) =
    [srtBlock idx st en (t1 :: ts)]
  rw [splitNN_seg idx hidxnl, splitNN_nl _ _ hside1, splitNN_seg st hstnl,
    splitNN_cons_ne ' ' (by decide), splitNN_cons_ne '-' (by decide),
    splitNN_cons_ne '-' (by decide), splitNN_cons_ne '>' (by decide),
    splitNN_cons_ne ' ' (by decide), splitNN_seg en hennl, splitNN_nl _ _ hside2,
    splitNN_joinNL (t1 :: ts) htexts]
  simp [srtBlock, List.reverse_cons, List.reverse_append, List.append_assoc]

/-- A block whose shape is index line, timing line, and one or more
newline-free nonempty text lines parses (under no leading or trailing
whitespace) to exactly one message capturing the first text line. -/
theorem parseSrt_srtBlock (idx st en t1 : List Char) (ts : List (List Char))
    (hidx : idx ≠ []) (hd : ∀ c ∈ idx, c.isDigit = true)
    (hst : st ≠ []) (hs : ∀ c ∈ st, isTimingChar c = true)
    (hen : en ≠ []) (he : ∀ c ∈ en, isTimingChar c = true)
    (htexts : ∀ t ∈ t1 :: ts, t ≠ [] ∧ '\n' ∉ t) (hts : ts ≠ [])
    (hstrip : pyStrip (srtBlock idx st en (t1 :: ts)) = srtBlock idx st en (t1 :: ts)) :
    parseSrt (String.mk (srtBlock idx st en (t1 :: ts))) =
      [⟨String.mk idx, String.mk st, String.mk en, String.mk t1⟩] := by
  have hidxnl : '\n' ∉ idx := fun hmem => absurd (hd '\n' hmem) (by decide)
  have hstnl : '\n' ∉ st := fun hmem => absurd (hs '\n' hmem) (by decide)
  have hennl : '\n' ∉ en := fun hmem => absurd (he '\n' hmem) (by decide)
  have ht1 := htexts t1 (List.mem_cons_self _ _)
  have hsplit := splitNN_srtBlock idx st en t1 ts hidxnl hstnl hennl htexts
  have hmatch : tryMatchAt (srtBlock idx st en (t1 :: ts)) =
      some ⟨String.mk idx, String.mk st, String.mk en, String.mk t1⟩ := by
    cases hts0 : ts with
    | nil => exact absurd hts0 hts
    | cons t2 ts2 =>
      show tryMatchAt (idx ++ '\n' :: (st ++ ' ' :: '-' :: '-' :: '>' :: ' ' ::
          (en ++ '\n' :: (t1 ++ '\n' :: joinNL (t2 :: ts2))))) = _
      exact tryMatchAt_shape idx st en t1 (joinNL (t2 :: ts2)) hidx hd hst hs hen he ht1.2
  have hne : srtBlock idx st en (t1 :: ts) ≠ [] := by
    cases hi0 : idx with
    | nil => exact absurd hi0 hidx
    | cons i0 irest => simp [srtBlock, hi0]
  have hblock : blockLine (srtBlock idx st en (t1 :: ts)) =
      some ⟨String.mk idx, String.mk st, String.mk en, String.mk t1⟩ := by
    unfold blockLine
    rw [hstrip]
    have hie : (srtBlock idx st en (t1 :: ts)).isEmpty = false := by
      cases hB : srtBlock idx st en (t1 :: ts) with
      | nil => exact absurd hB hne
      | cons b bs => rfl
    rw [hie]
    simp only [Bool.false_eq_true, if_false]
    obtain ⟨i0, irest, hi0⟩ := List.exists_cons_of_ne_nil hidx
    have hcons : srtBlock idx st en (t1 :: ts) = i0 ::
        (irest ++ '\n' :: (st ++ ' ' :: '-' :: '-' :: '>' :: ' ' ::
          (en ++ '\n' :: joinNL (t1 :: ts)))) := by
      rw [hi0]; simp [srtBlock]
    rw [hcons, reSearch, ← List.cons_append, ← hi0]
    have hmatch2 := hmatch
    rw [show srtBlock idx st en (t1 :: ts) =
      idx ++ '\n' :: (st ++ ' ' :: '-' :: '-' :: '>' :: ' ' ::
        (en ++ '\n' :: joinNL (t1 :: ts))) from rfl] at hmatch2
    rw [hmatch2]
  unfold parseSrt
  show (splitNN [] (srtBlock idx st en (t1 :: ts))).foldl appendIfMatch [] = _
  rw [hsplit, foldl_appendIfMatch, List.filterMap_cons, hblock]
  rfl

/-- Claim C6: `parse` is an order-preserving filter of the payload blocks —
the returned messages are exactly the order-preserving projection
(`filterMap`) of the `"\n\n"`-separated blocks through the per-block
matcher, and the number of returned lines equals the number of blocks the
matcher accepts (malformed blocks are excluded silently, never erroring the
parse). -/
theorem c6_parse_order_and_count (s : String) :
    parseSrt s = (splitNN [] s.data).filterMap blockLine ∧
    (parseSrt s).length = (splitNN [] s.data).countP (fun b => (blockLine b).isSome) := by
  have h1 : parseSrt s = (splitNN [] s.data).filterMap blockLine := by
    unfold parseSrt
    rw [foldl_appendIfMatch]
    simp
  exact ⟨h1, by rw [h1]; exact length_filterMap_countP blockLine (splitNN [] s.data)⟩

/-- Claim C6 witness: the general theorem applied at a concrete payload
with one malformed and two well-formed blocks. -/
theorem c6_witness :
    parseSrt "1\n00:00:01,000 --> 00:00:02,000\na\n\nbad\n\n2\n00:00:03,000 --> 00:00:04,000\nb" =
      (splitNN [] ("1\n00:00:01,000 --> 00:00:02,000\na\n\nbad\n\n2\n00:00:03,000 --> 00:00:04,000\nb").data).filterMap blockLine ∧
    (parseSrt "1\n00:00:01,000 --> 00:00:02,000\na\n\nbad\n\n2\n00:00:03,000 --> 00:00:04,000\nb").length =
      (splitNN [] ("1\n00:00:01,000 --> 00:00:02,000\na\n\nbad\n\n2\n00:00:03,000 --> 00:00:04,000\nb").data).countP
        (fun b => (blockLine b).isSome) :=
  c6_parse_order_and_count "1\n00:00:01,000 --> 00:00:02,000\na\n\nbad\n\n2\n00:00:03,000 --> 00:00:04,000\nb"

/-- Claim C8: on the single well-formed block the parser yields exactly one
line whose captured index is the digit string `"1"` — denoting the integer
1 (which is ≥ 1) — with the stated start, end and text fields. -/
theorem c8_single_block :
    parseSrt "1\n00:00:01,000 --> 00:00:02,000\nHello world" =
      [⟨"1", "00:00:01,000", "00:00:02,000", "Hello world"⟩] ∧
    (parseSrt "1\n00:00:01,000 --> 00:00:02,000\nHello world").map
      (fun m => decimalValue m.idx.data) = [1] := by
  constructor
  · decide
  · decide

/-- Claim C9: a block with an index line, a timing line, and two or more
text lines is not skipped — it produces exactly one message whose text is
the first text line; the remaining text lines are discarded. -/
theorem c9_multiline_first_text (idx st en t1 t2 : List Char) (more : List (List Char))
    (hidx : idx ≠ []) (hd : ∀ c ∈ idx, c.isDigit = true)
    (hst : st ≠ []) (hs : ∀ c ∈ st, isTimingChar c = true)
    (hen : en ≠ []) (he : ∀ c ∈ en, isTimingChar c = true)
    (htexts : ∀ t ∈ t1 :: t2 :: more, t ≠ [] ∧ '\n' ∉ t)
    (hstrip : pyStrip (srtBlock idx st en (t1 :: t2 :: more)) =
      srtBlock idx st en (t1 :: t2 :: more)) :
    parseSrt (String.mk (srtBlock idx st en (t1 :: t2 :: more))) =
      [⟨String.mk idx, String.mk st, String.mk en, String.mk t1⟩] :=
  parseSrt_srtBlock idx st en t1 (t2 :: more) hidx hd hst hs hen he htexts (by simp) hstrip

/-- Claim C9 witness: the theorem applied to the concrete two-text-line
block `"12\n00:00:01,000 --> 00:00:02,000\nhello\nworld"`. -/
theorem c9_witness :
    parseSrt (String.mk (srtBlock "12".data "00:00:01,000".data "00:00:02,000".data
        ["hello".data, "world".data])) =
      [⟨String.mk "12".data, String.mk "00:00:01,000".data, String.mk "00:00:02,000".data,
        String.mk "hello".data⟩] :=
  c9_multiline_first_text "12".data "00:00:01,000".data "00:00:02,000".data
    "hello".data "world".data [] (by decide) (by decide) (by decide) (by decide)
    (by decide) (by decide) (by decide) (by decide)

/-- Claim C10: the parser performs no timecode validation — the block
`"1\n,,, --> ,,,\nhi"` has start and end fields `",,,"` built from the
pattern's character class yet not of `HH:MM:SS,mmm` shape, and `parse`
accepts the block and carries the fields verbatim. -/
theorem c10_no_timecode_validation :
    parseSrt "1\n,,, --> ,,,\nhi" = [⟨"1", ",,,", ",,,", "hi"⟩] ∧
    specTimecode ",,," = false ∧
    (",,,").data.all isTimingChar = true ∧ ",,," ≠ "" := by
  refine ⟨by decide, by decide, by decide, by decide⟩

/-- Claim C7: the checkpoint scan of a directory of parsable-prefix `.csv`
files returns the maximum parsed timestamp as `last` and the minimum as
`oldest` — shown on the spec's example pair — returns absent for an empty
directory, and in general its bounds are the minimum and maximum of the
parsed upload timestamps, with success guaranteed when every file name is a
parsable `.csv`. -/
theorem c7_scan_min_max :
    get_extreme_video_date demoFiles =
      .ok (some ⟨dtKey 2018 4 10 9 0 0, dtKey 2018 3 15 12 0 0⟩) ∧
    get_extreme_video_date [] = .ok none ∧
    (∀ fs ex, get_extreme_video_date fs = .ok (some ex) →
      ex.oldest ∈ scanDates fs ∧ ex.last ∈ scanDates fs ∧
        ∀ k ∈ scanDates fs, ex.oldest ≤ k ∧ k ≤ ex.last) ∧
    (∀ fs, fs ≠ [] →
      (∀ f ∈ fs, csvMatch f = true ∧
        ∃ k, parseYmdHms (fileDateText (DIR_NAME ++ "/" ++ f)).data = some k) →
      ∃ ex, get_extreme_video_date fs = .ok (some ex)) := by
  refine ⟨by decide, by decide, ?_, ?_⟩
  · intro fs ex h
    unfold get_extreme_video_date at h
    cases hc : collectDates (fs.filter csvMatch) with
    | error e => rw [hc] at h; exact absurd h (by simp)
    | ok ks =>
      rw [hc] at h
      cases ks with
      | nil => exact absurd h (by simp)
      | cons k ks2 =>
        have hex : ex = ⟨maxList k ks2, minList k ks2⟩ := by
          have h2 := h
          simp only [Except.ok.injEq, Option.some.injEq] at h2
          exact h2.symm
        have hds : k :: ks2 = scanDates fs := collectDates_ok (fs.filter csvMatch) (k :: ks2) hc
        rw [hex, ← hds]
        exact ⟨minList_mem ks2 k, maxList_mem ks2 k,
          fun x hx => ⟨minList_le ks2 k x hx, maxList_ge ks2 k x hx⟩⟩
  · intro fs hne hall
    have hfilter : fs.filter csvMatch = fs := List.filter_eq_self.mpr (fun f hf => (hall f hf).1)
    have hsome : ∀ f ∈ fs.filter csvMatch, ∃ k,
        parseYmdHms (fileDateText (DIR_NAME ++ "/" ++ f)).data = some k := by
      rw [hfilter]; exact fun f hf => (hall f hf).2
    obtain ⟨ks, hks⟩ := collectDates_all_some (fs.filter csvMatch) hsome
    obtain ⟨f0, fr, hfs⟩ := List.exists_cons_of_ne_nil hne
    have hkcons : ∃ k ks2, ks = k :: ks2 := by
      have hlen := collectDates_ok (fs.filter csvMatch) ks hks
      rw [hfilter, hfs] at hlen
      rcases hall f0 (by rw [hfs]; exact List.mem_cons_self _ _) with ⟨_, k, hk⟩
      rw [List.filterMap_cons, hk] at hlen
      exact ⟨k, (fr.filterMap fun f => parseYmdHms (fileDateText (DIR_NAME ++ "/" ++ f)).data),
        hlen⟩
    rcases hkcons with ⟨k, ks2, hkk⟩
    refine ⟨⟨maxList k ks2, minList k ks2⟩, ?_⟩
    unfold get_extreme_video_date
    rw [hks, hkk]

/-- Claim C7 witness: the general bound characterization and the totality
clause of the theorem, instantiated at the spec's example directory. -/
theorem c7_witness :
    dtKey 2018 3 15 12 0 0 ∈ scanDates demoFiles ∧
    dtKey 2018 4 10 9 0 0 ∈ scanDates demoFiles ∧
    (∃ ex, get_extreme_video_date demoFiles = .ok (some ex)) := by
  have h3 := (c7_scan_min_max).2.2.1 demoFiles
    ⟨dtKey 2018 4 10 9 0 0, dtKey 2018 3 15 12 0 0⟩ (by decide)
  have h4 := (c7_scan_min_max).2.2.2 demoFiles (by decide)
    (by
      intro f hf
      simp only [demoFiles, List.mem_cons, List.not_mem_nil, or_false] at hf
      rcases hf with h | h
      · exact ⟨by rw [h]; decide, ⟨dtKey 2018 3 15 12 0 0, by rw [h]; decide⟩⟩
      · exact ⟨by rw [h]; decide, ⟨dtKey 2018 4 10 9 0 0, by rw [h]; decide⟩⟩)
  exact ⟨h3.1, h3.2.1, h4⟩

/-- Claim C4 counterexample: a directory with one parsable and one
unparsable file name makes the scan raise `ValueError` (abort) instead of
skipping the bad name — even though the same scan succeeds on the parsable
file alone. -/
theorem c4_counterexample :
    get_extreme_video_date ["20180315_120000_abc.csv", "garbage.csv"] = .error .valueError ∧
    get_extreme_video_date ["20180315_120000_abc.csv"] =
      .ok (some ⟨dtKey 2018 3 15 12 0 0, dtKey 2018 3 15 12 0 0⟩) := by
  exact ⟨by decide, by decide⟩

/-- Claim C4 as amended: the scan is aborted by a single `.csv` file name
whose timestamp prefix does not parse — `pd.to_datetime` raises
`ValueError` and no bounds are derived from the remaining parsable
names. -/
theorem c4_scan_aborts_on_bad_name (fs : List String) (f : String)
    (hmem : f ∈ fs) (hcsv : csvMatch f = true)
    (hbad : parseYmdHms (fileDateText (DIR_NAME ++ "/" ++ f)).data = none) :
    get_extreme_video_date fs = .error .valueError := by
  have herr := collectDates_err (fs.filter csvMatch)
    ⟨f, List.mem_filter.mpr ⟨hmem, hcsv⟩, hbad⟩
  unfold get_extreme_video_date
  rw [herr]

/-- Claim C4 witness: the amended theorem at a concrete directory with one
good and one bad file name. -/
theorem c4_witness :
    get_extreme_video_date ["20180410_090000_x.csv", "nodate.csv"] = .error .valueError :=
  c4_scan_aborts_on_bad_name ["20180410_090000_x.csv", "nodate.csv"] "nodate.csv"
    (by decide) (by decide) (by decide)

/-- First-page request shape of the crawl: with fuel available, the head of
the request log is the freshly computed window paired with the incoming
page token, and no request is logged when the window computation raises. -/
theorem crawl_reqs_head (env : Env) (g : Getter) (fuel : Nat) (d : List String)
    (tok : Option String) :
    (crawl env g (fuel + 1) d tok).reqs.head? =
      match computeWindow g d with
      | .error _ => none
      | .ok w => some (w, tok) := by
  rw [crawl]
  cases hw : computeWindow g d with
  | error e => simp [hw]
  | ok w =>
    rcases hpi : processItems env (env.search w tok).items d with ⟨d2, oerr⟩
    cases oerr with
    | some e => simp [hw, hpi]
    | none =>
      by_cases ht : pyFalsyOptStr (env.search w tok).nextPageToken = true
      · simp [hw, hpi, ht]
      · simp [hw, hpi, ht]

/-- Claim C1 counterexample: in a run whose `captions.list` raises 403 for
the first video, the whole crawl aborts with that `HttpError` — the
forbidden error during caption-track resolution is not absorbed, no further
item is processed, and no record is produced. -/
theorem c1_counterexample :
    crawl envC1 ⟨false, false⟩ 1 [] none =
      ⟨[], [(⟨some GRAB_AFTER, some GRAB_BEFORE⟩, none)], some (.http 403)⟩ := by
  decide

/-- Claim C1 as amended: a forbidden (403) transport error raised while
downloading the caption track is absorbed as "no captions" — no record for
that video, and the loop continues with the next item unchanged — while
any `HttpError` raised while resolving the caption track (403 included),
and any non-403 error during download, propagates and aborts the page
processing. -/
theorem c1_forbidden_semantics (envA envB envC : Env) (item : SearchItem)
    (rest : List SearchItem) (d : List String) (u s1 s2 : Nat) (cidB cidC : String)
    (hu : parseIso item.publishedAt.data = some u) :
    (envA.captions item.videoId = .err s1 →
      processItems envA (item :: rest) d = (d, some (.http s1))) ∧
    (get_asr_caption_id (envB.captions item.videoId) = .ok (some cidB) → ¬ cidB = "" →
      envB.download cidB = .err 403 →
      processItems envB (item :: rest) d = processItems envB rest d) ∧
    (get_asr_caption_id (envC.captions item.videoId) = .ok (some cidC) → ¬ cidC = "" →
      envC.download cidC = .err s2 → ¬ s2 = 403 →
      processItems envC (item :: rest) d = (d, some (.http s2))) := by
  refine ⟨?_, ?_, ?_⟩
  · intro hcap
    have hpi : processItem envA item d = .error (.http s1) := by
      simp [processItem, hu, hcap, get_asr_caption_id]
    simp [processItems, hpi]
  · intro hasr hcid hdl
    have hpi : processItem envB item d = .ok d := by
      simp [processItem, hu, hasr, pyFalsyOptStr, hcid, hdl, get_subtitles]
    simp [processItems, hpi]
  · intro hasr hcid hdl hs2
    have hpi : processItem envC item d = .error (.http s2) := by
      simp [processItem, hu, hasr, pyFalsyOptStr, hcid, hdl, get_subtitles, hs2]
    simp [processItems, hpi]

/-- Claim C1 witness: the three branches of the amended theorem at concrete
environments — resolution-403 aborts, download-403 is absorbed, and
download-500 aborts. -/
theorem c1_witness :
    processItems envWA [itemW] [] = ([], some (.http 403)) ∧
    processItems envWB [itemW] [] = processItems envWB [] [] ∧
    processItems envWC [itemW] [] = ([], some (.http 500)) := by
  have h := c1_forbidden_semantics envWA envWB envWC itemW [] []
    (dtKey 2018 2 1 0 0 0) 403 500 "cb" "cc" (by decide)
  exact ⟨h.1 rfl, h.2.1 (by decide) (by decide) rfl, h.2.2 (by decide) (by decide) rfl (by decide)⟩

/-- Claim C2 counterexample: a two-page backfill run in which the first
page persists a file older than the checkpoint, and whose second
(continuation-cursor) page is requested with a different `publishedBefore`
bound: the bounds are not the same pair for every page of the run. -/
theorem c2_counterexample :
    (crawl envC2 ⟨false, true⟩ 2 ["20180315_120000_abc.csv"] none).reqs =
      [(⟨none, some "2018-03-15T12:00:00Z"⟩, none),
       (⟨none, some "2018-02-01T00:00:00Z"⟩, some "t2")] ∧
    (⟨none, some "2018-03-15T12:00:00Z"⟩ : Window) ≠
      ⟨none, some "2018-02-01T00:00:00Z"⟩ := by
  exact ⟨by decide, by decide⟩

/-- Claim C2 as amended: the crawl window is recomputed from the directory
contents at the start of every page request — whatever directory state `d`
and continuation token a (sub-)run starts from, the request it issues
carries exactly the window derived from `d` by the mode rule at that
moment, so pages after a page that persisted files can carry different
bounds within one run. -/
theorem c2_window_recomputed_per_page (env : Env) (g : Getter) (fuel : Nat)
    (d : List String) (tok : Option String) (w : Window) (t : Option String)
    (h : (crawl env g (fuel + 1) d tok).reqs.head? = some (w, t)) :
    computeWindow g d = .ok w ∧ t = tok := by
  rw [crawl_reqs_head] at h
  cases hw : computeWindow g d with
  | error e => rw [hw] at h; exact absurd h (by simp)
  | ok w2 =>
    rw [hw] at h
    simp only [Option.some.injEq, Prod.mk.injEq] at h
    exact ⟨by rw [h.1], h.2.symm⟩

/-- Claim C2 witness: the amended theorem at the concrete two-page run —
the first page request of the run carries the window computed from the
initial directory state. -/
theorem c2_witness :
    computeWindow ⟨false, true⟩ ["20180315_120000_abc.csv"] =
      .ok ⟨none, some "2018-03-15T12:00:00Z"⟩ ∧ (none : Option String) = none :=
  c2_window_recomputed_per_page envC2 ⟨false, true⟩ 1 ["20180315_120000_abc.csv"] none
    ⟨none, some "2018-03-15T12:00:00Z"⟩ none (by decide)

/-- Claim C3 counterexample: with an empty persistence directory the scan
does yield absent, but in backfill mode the crawler subscripts that `None`
and aborts with a `TypeError` before issuing any page request — it does not
proceed with the static default window. -/
theorem c3_counterexample :
    get_extreme_video_date [] = .ok none ∧
    computeWindow ⟨false, true⟩ [] = .error .typeError ∧
    crawl envC3 ⟨false, true⟩ 1 [] none = ⟨[], [], some .typeError⟩ := by
  refine ⟨by decide, by decide, by decide⟩

/-- Claim C3 as amended: with no persisted record-set files the scan yields
absent; in `initial` mode the crawler proceeds normally with the static
default window (for any directory contents), while in backfill or catch-up
mode the run aborts with a `TypeError` before any page request. -/
theorem c3_empty_dir_modes (env : Env) (g : Getter) (d : List String) (fuel : Nat)
    (tok : Option String) :
    get_extreme_video_date [] = .ok none ∧
    computeWindow ⟨false, false⟩ d = .ok ⟨some GRAB_AFTER, some GRAB_BEFORE⟩ ∧
    ((g.get_latest = true ∨ g.get_after_least = true) →
      computeWindow g [] = .error .typeError ∧
      crawl env g (fuel + 1) [] tok = ⟨[], [], some .typeError⟩) ∧
    (crawl env ⟨false, false⟩ (fuel + 1) d tok).reqs.head? =
      some (⟨some GRAB_AFTER, some GRAB_BEFORE⟩, tok) := by
  refine ⟨by decide, rfl, ?_, ?_⟩
  · intro hor
    have hcw : computeWindow g [] = .error .typeError := by
      rcases hor with h | h
      · unfold computeWindow
        rw [h]
        simp [get_extreme_video_date, collectDates]
      · by_cases hl : g.get_latest = true
        · unfold computeWindow
          rw [hl]
          simp [get_extreme_video_date, collectDates]
        · have hl2 : g.get_latest = false := by revert hl; cases g.get_latest <;> simp
          unfold computeWindow
          rw [hl2, h]
          simp [get_extreme_video_date, collectDates]
    refine ⟨hcw, ?_⟩
    rw [crawl, hcw]
  · rw [crawl_reqs_head]
    rfl

/-- Claim C3 witness: the amended theorem's failure branch at catch-up mode
over the empty directory. -/
theorem c3_witness :
    computeWindow ⟨true, false⟩ [] = .error .typeError ∧
    crawl envC3 ⟨true, false⟩ 1 [] none = ⟨[], [], some .typeError⟩ := by
  have h := c3_empty_dir_modes envC3 ⟨true, false⟩ [] 0 none
  exact h.2.2.1 (Or.inl rfl)

/-- Claim C5: when processing one discovered item succeeds, the next item
is processed against the directory as the item left it (per-video flush),
and exactly one file was appended if and only if the caption-track resolver
returned a (non-falsy) ASR track identifier and the subtitle fetch-parse
step returned at least one line; otherwise the directory is unchanged — no
record, no file. -/
theorem c5_record_iff (env : Env) (item : SearchItem) (rest : List SearchItem)
    (d d2 : List String) (h : processItem env item d = .ok d2) :
    processItems env (item :: rest) d = processItems env rest d2 ∧
    ((∃ cid subs, ¬ cid = "" ∧
        get_asr_caption_id (env.captions item.videoId) = .ok (some cid) ∧
        get_subtitles (env.download cid) = .ok subs ∧ ¬ subs = []) ↔
      ∃ fn, d2 = d ++ [fn]) ∧
    (d2 = d ∨ ∃ fn, d2 = d ++ [fn]) := by
  refine ⟨by simp [processItems, h], ?_, ?_⟩
  · unfold processItem at h
    cases hpi : parseIso item.publishedAt.data with
    | none => rw [hpi] at h; simp at h
    | some u =>
      rw [hpi] at h
      cases hasr : get_asr_caption_id (env.captions item.videoId) with
      | error e => rw [hasr] at h; simp at h
      | ok asrId =>
        rw [hasr] at h
        cases hasr2 : asrId with
        | none =>
          rw [hasr2] at h
          simp [pyFalsyOptStr] at h
          constructor
          · rintro ⟨cid, subs, hne2, hc, _⟩
            exact absurd hc (by simp)
          · rintro ⟨fn, hfn⟩
            rw [← h] at hfn
            exact absurd hfn (by simp)
        | some cid0 =>
          rw [hasr2] at h
          by_cases hcid : cid0 = ""
          · simp [pyFalsyOptStr, hcid] at h
            constructor
            · rintro ⟨cid, subs, hne2, hc, _⟩
              simp only [Except.ok.injEq, Option.some.injEq] at hc
              exact absurd (by rw [← hc, hcid]) hne2
            · rintro ⟨fn, hfn⟩
              rw [← h] at hfn
              exact absurd hfn (by simp)
          · simp [pyFalsyOptStr, hcid] at h
            cases hsub : get_subtitles (env.download cid0) with
            | error e => rw [hsub] at h; simp at h
            | ok subs =>
              rw [hsub] at h
              by_cases hemp : subs = []
              · rw [hemp] at h
                simp at h
                constructor
                · rintro ⟨cid, subs2, hne2, hc, hsb, hnn⟩
                  simp only [Except.ok.injEq, Option.some.injEq] at hc
                  rw [← hc, hsub] at hsb
                  simp only [Except.ok.injEq] at hsb
                  exact absurd (by rw [← hsb]; exact hemp) hnn
                · rintro ⟨fn, hfn⟩
                  rw [← h] at hfn
                  exact absurd hfn (by simp)
              · simp [hemp] at h
                constructor
                · intro _
                  exact ⟨strfFileTs u ++ "_" ++ item.videoId ++ ".csv", h.symm⟩
                · intro _
                  exact ⟨cid0, subs, hcid, rfl, hsub, hemp⟩
  · unfold processItem at h
    cases hpi : parseIso item.publishedAt.data with
    | none => rw [hpi] at h; simp at h
    | some u =>
      rw [hpi] at h
      cases hasr : get_asr_caption_id (env.captions item.videoId) with
      | error e => rw [hasr] at h; simp at h
      | ok asrId =>
        rw [hasr] at h
        by_cases hfal : pyFalsyOptStr asrId = true
        · simp [hfal] at h
          exact Or.inl h.symm
        · have hfal2 : pyFalsyOptStr asrId = false := by
            revert hfal; cases pyFalsyOptStr asrId <;> simp
          simp [hfal2] at h
          cases hsub : get_subtitles (env.download (asrId.getD "")) with
          | error e => rw [hsub] at h; simp at h
          | ok subs =>
            rw [hsub] at h
            by_cases hemp : subs = []
            · rw [hemp] at h
              simp at h
              exact Or.inl h.symm
            · simp [hemp] at h
              exact Or.inr ⟨strfFileTs u ++ "_" ++ item.videoId ++ ".csv", h.symm⟩

/-- Claim C5 witness: the theorem at a concrete environment in which the
item qualifies, showing the appended file is in the directory handed to the
rest of the loop. -/
theorem c5_witness :
    processItems envW5 [itemW] [] = processItems envW5 [] ["20180201_000000_v1.csv"] ∧
    ((∃ cid subs, ¬ cid = "" ∧
        get_asr_caption_id (envW5.captions itemW.videoId) = .ok (some cid) ∧
        get_subtitles (envW5.download cid) = .ok subs ∧ ¬ subs = []) ↔
      ∃ fn, ["20180201_000000_v1.csv"] = [] ++ [fn]) ∧
    (["20180201_000000_v1.csv"] = ([] : List String) ∨
      ∃ fn, ["20180201_000000_v1.csv"] = [] ++ [fn]) :=
  c5_record_iff envW5 itemW [] [] ["20180201_000000_v1.csv"] (by decide)

end YTGrab
